import Mathlib

/-!
Verification of the update_engine payload-consumer core.

Shallow embedding of:
* `PayloadMetadata::ParsePayloadHeader` (payload_consumer/payload_metadata.cc)
* `PostinstallRunnerAction` progress / exit-code / completion logic
  (payload_consumer/postinstall_runner_action.cc)
* `BootControlInterface::SlotName` (common/boot_control_interface.h)
* `utils::ReadAll` (common/utils.cc)

Byte buffers are `List Nat` with each entry understood modulo 256 (an
`unsigned char`); 64-bit arithmetic is `Nat` with explicit `% 2 ^ 64`.
-/

set_option autoImplicit false

namespace chromeos_update_engine

/-- Error codes used by the modelled subset (ErrorCode enum). -/
inductive ErrorCode where
  | kSuccess
  | kError
  | kDownloadInvalidMetadataMagicString
  | kUnsupportedMajorPayloadVersion
  | kDownloadInvalidMetadataSize
  | kPostInstallMountError
  | kPostinstallRunnerError
  | kPostinstallBootedFromFirmwareB
  | kPostinstallFirmwareRONotUpdatable
  | kPostinstallPowerwashError
  | kUpdatedButNotActive
  deriving DecidableEq, Repr

/-- Result values of `PayloadMetadata::ParsePayloadHeader`. -/
inductive MetadataParseResult where
  | kSuccess
  | kError
  | kInsufficientData
  deriving DecidableEq, Repr

/-- Modelled from the spec: `kDeltaMagic` lives in payload_constants.cc which is
not part of src/; the spec fixes the magic to the four bytes of `CrAU`. -/
def kDeltaMagic : List Nat := [0x43, 0x72, 0x41, 0x55]

/-- Modelled from the spec: the supported major-version range constants are
declared in payload_constants (not in src/); the spec gives the admissible
range 2..=2. -/
def kMinSupportedMajorPayloadVersion : Nat := 2

/-- Modelled from the spec: upper end of the supported major-version range. -/
def kMaxSupportedMajorPayloadVersion : Nat := 2

def kDeltaVersionOffset : Nat := 4

def kDeltaVersionSize : Nat := 8

def kDeltaManifestSizeOffset : Nat := kDeltaVersionOffset + kDeltaVersionSize

def kDeltaManifestSizeSize : Nat := 8

def kDeltaMetadataSignatureSizeSize : Nat := 4

/-- `PayloadMetadata::GetMetadataSignatureSizeOffset`. -/
def GetMetadataSignatureSizeOffset : Nat :=
  kDeltaManifestSizeOffset + kDeltaManifestSizeSize

/-- `PayloadMetadata::GetManifestOffset`. -/
def GetManifestOffset : Nat :=
  kDeltaManifestSizeOffset + kDeltaManifestSizeSize +
    kDeltaMetadataSignatureSizeSize

/-- Big-endian decoding of `n` bytes of `payload` starting at `off`
(`memcpy` + `be64toh`/`be32toh`); each entry is taken modulo 256 since the
source buffer holds `unsigned char`. -/
def beBytes (payload : List Nat) (off n : Nat) : Nat :=
  ((payload.drop off).take n).foldl (fun a b => a * 256 + b % 256) 0

/-- `PayloadMetadata::ParsePayloadHeader(payload, size, error)`: returns the
`MetadataParseResult` together with the `*error` output (written only on the
error paths). -/
def ParsePayloadHeader (payload : List Nat) :
    MetadataParseResult × Option ErrorCode :=
  -- Ensure we have data to cover the major payload version.
  if payload.length < kDeltaManifestSizeOffset then
    (.kInsufficientData, none)
  -- Validate the magic string (memcmp on the first four bytes).
  else if (payload.take 4).map (fun b => b % 256) ≠ kDeltaMagic then
    (.kError, some .kDownloadInvalidMetadataMagicString)
  -- Check again with the manifest offset.
  else if payload.length < GetManifestOffset then
    (.kInsufficientData, none)
  else
    let major := beBytes payload kDeltaVersionOffset kDeltaVersionSize
    if major < kMinSupportedMajorPayloadVersion ∨
        kMaxSupportedMajorPayloadVersion < major then
      (.kError, some .kUnsupportedMajorPayloadVersion)
    else
      let manifest_size :=
        beBytes payload kDeltaManifestSizeOffset kDeltaManifestSizeSize
      -- metadata_size_ = manifest_offset + manifest_size_ (uint64 wraps).
      let metadata_size := (GetManifestOffset + manifest_size) % 2 ^ 64
      if metadata_size < manifest_size then
        (.kError, some .kDownloadInvalidMetadataSize)
      else
        let metadata_signature_size :=
          beBytes payload GetMetadataSignatureSizeOffset
            kDeltaMetadataSignatureSizeSize
        if (metadata_size + metadata_signature_size) % 2 ^ 64 <
            metadata_size then
          (.kError, some .kDownloadInvalidMetadataSize)
        else
          (.kSuccess, none)

/-- `BootControlInterface::Slot` is `unsigned int`; `kInvalidSlot = UINT_MAX`. -/
def kInvalidSlot : Nat := 4294967295

/-- `BootControlInterface::SlotName` (boot_control_interface.h): `"INVALID"`
for the invalid sentinel, `std::string(1, 'A' + slot)` for slots below 26,
`"TOO_BIG"` otherwise. -/
def SlotName (slot : Nat) : String :=
  if slot = kInvalidSlot then "INVALID"
  else if slot < 26 then String.mk [Char.ofNat (65 + slot)]
  else "TOO_BIG"

namespace utils

/-- `errno` values relevant to `utils::ReadAll` (Linux: EAGAIN = 11). -/
def EAGAIN : Nat := 11

/-- On Linux `EWOULDBLOCK` is the same value as `EAGAIN`. -/
def EWOULDBLOCK : Nat := 11

/-- One call to `read(2)` on the descriptor: either it fails with an errno, or
it returns `n` bytes (`n = 0` meaning end of file). -/
inductive ReadOutcome where
  | rerr (errno : Nat)
  | rdata (n : Nat)
  deriving DecidableEq, Repr

/-- The observable outputs of `utils::ReadAll`: the boolean return value, the
`*out_bytes_read` output and the `*eof` output. -/
structure ReadAllResult where
  ok : Bool
  bytes_read : Nat
  eof : Bool
  deriving DecidableEq, Repr

/-- `utils::ReadAll(fd, buf, count, out_bytes_read, eof)` (common/utils.cc),
with the descriptor abstracted as the list of successive `read` outcomes and
the running `bytes_read` accumulator explicit (the caller starts it at 0).
`none` models the loop demanding a read the trace does not provide. A
successful read can never deliver more than the `count - bytes_read` bytes
requested, hence the `min`. -/
def ReadAll : List ReadOutcome → Nat → Nat → Option ReadAllResult
  | outs, count, bytes_read =>
    if bytes_read < count then
      match outs with
      | [] => none
      | .rerr e :: _ =>
        -- EAGAIN and EWOULDBLOCK are normal when in non-blocking mode: break
        -- out of the loop; any other errno is a real error.
        if e ≠ EWOULDBLOCK ∧ e ≠ EAGAIN then some ⟨false, bytes_read, false⟩
        else some ⟨true, bytes_read, false⟩
      | .rdata n :: rest =>
        if n = 0 then some ⟨true, bytes_read, true⟩
        else ReadAll rest count (bytes_read + min n (count - bytes_read))
    else some ⟨true, bytes_read, false⟩

end utils

/-- The value of a C `double` as seen by the runner: NaN, a signed infinity,
or a finite value (held exactly as a rational; the clamping logic only
compares against 0 and 1, which exact values preserve). -/
inductive DVal where
  | nan
  | inf (neg : Bool)
  | finite (q : ℚ)
  deriving DecidableEq, Repr

/-- Whitespace in the C locale, as skipped by `sscanf` / `strtod`. -/
def isSpaceChar (c : Char) : Bool :=
  c = ' ' || c = '\t' || c = '\n' || c = '\x0b' || c = '\x0c' || c = '\r'

/-- Drop leading C-locale whitespace. -/
def skipWs : List Char → List Char
  | [] => []
  | c :: cs => if isSpaceChar c then skipWs cs else c :: cs

/-- Longest leading run of decimal digits, as digit values plus the rest. -/
def takeDigits : List Char → List Nat × List Char
  | [] => ([], [])
  | c :: cs =>
    if c.isDigit then
      let r := takeDigits cs
      ((c.toNat - 48) :: r.1, r.2)
    else ([], c :: cs)

/-- Value of a digit-value list read most-significant first. -/
def digitsVal (ds : List Nat) : Nat :=
  ds.foldl (fun a d => a * 10 + d) 0

/-- Match a (lowercase) keyword case-insensitively against the input,
returning the rest of the input on success. -/
def matchCaseInsensitive : List Char → List Char → Option (List Char)
  | [], rest => some rest
  | _, [] => none
  | k :: ks, c :: cs =>
    if c.toLower = k then matchCaseInsensitive ks cs else none

/-- Scan an optional decimal exponent (`e`/`E`, optional sign, digits). When
the exponent letter is not followed by a digit, `strtod` backtracks and the
exponent is not consumed. -/
def scanExponent (cs : List Char) : Int × List Char :=
  match cs with
  | [] => (0, [])
  | c :: rest =>
    if c = 'e' || c = 'E' then
      let signRest :=
        match rest with
        | s :: r2 =>
          if s = '-' then (true, r2)
          else if s = '+' then (false, r2)
          else (false, rest)
        | [] => (false, rest)
      let dr := takeDigits signRest.2
      if dr.1.isEmpty then (0, c :: rest)
      else
        ((if signRest.1 then -(digitsVal dr.1 : Int) else (digitsVal dr.1 : Int)),
          dr.2)
    else (0, c :: rest)

/-- The conversion performed by `sscanf` for a `%lf` directive (glibc
`strtod` on the longest valid prefix): skip whitespace, optional sign, then
either `infinity`/`inf`/`nan` (case-insensitively) or a decimal number with
optional fraction and exponent. Hexadecimal float forms and `nan(...)`
payload forms are not modelled. `none` models a matching failure (`sscanf`
returns 0). -/
def scanDouble (input : List Char) : Option (DVal × List Char) :=
  let cs := skipWs input
  let signRest :=
    match cs with
    | c :: rest =>
      if c = '-' then (true, rest)
      else if c = '+' then (false, rest)
      else (false, cs)
    | [] => (false, cs)
  let neg := signRest.1
  let cs1 := signRest.2
  match matchCaseInsensitive ("infinity".data) cs1 with
  | some rest => some (DVal.inf neg, rest)
  | none =>
  match matchCaseInsensitive ("inf".data) cs1 with
  | some rest => some (DVal.inf neg, rest)
  | none =>
  match matchCaseInsensitive ("nan".data) cs1 with
  | some rest => some (DVal.nan, rest)
  | none =>
    let intPart := takeDigits cs1
    let fracPart :=
      match intPart.2 with
      | c :: rest => if c = '.' then takeDigits rest else ([], intPart.2)
      | [] => ([], intPart.2)
    if intPart.1.isEmpty ∧ fracPart.1.isEmpty then none
    else
      let er := scanExponent fracPart.2
      let base : ℚ :=
        (digitsVal intPart.1 : ℚ) +
          (digitsVal fracPart.1 : ℚ) / (10 : ℚ) ^ fracPart.1.length
      let mag : ℚ :=
        if 0 ≤ er.1 then base * (10 : ℚ) ^ er.1.toNat
        else base / (10 : ℚ) ^ (-er.1).toNat
      some (DVal.finite (if neg then -mag else mag), er.2)

/-- Match the literal characters of the format string exactly, returning the
remaining input. -/
def dropLiteral : List Char → List Char → Option (List Char)
  | [], rest => some rest
  | _, [] => none
  | k :: ks, c :: cs => if c = k then dropLiteral ks cs else none

/-- The literal part of the `sscanf` format `"global_progress %lf"`. -/
def gpLiteral : List Char := "global_progress".data

/-- `PostinstallRunnerAction::ProcessProgressLine`: `some frac` means the
`sscanf` matched, the value was not NaN, and `ReportProgress(frac)` was
called; `none` means the line was ignored. -/
def ProcessProgressLine (line : String) : Option DVal :=
  match dropLiteral gpLiteral line.data with
  | none => none
  | some rest =>
    match scanDouble rest with
    | none => none
    | some vr => if vr.1 = DVal.nan then none else some vr.1

/-- The clamping performed inside `PostinstallRunnerAction::ReportProgress`:
non-finite or negative values become 0, values above 1 become 1. -/
def clampFrac (frac : DVal) : ℚ :=
  match frac with
  | .finite q => if q < 0 then 0 else if 1 < q then 1 else q
  | _ => 0

/-- The progress-related fields of `PostinstallRunnerAction`. -/
structure RunnerState where
  partition_weight : List Nat
  current_partition : Nat
  accumulated_weight : Nat
  total_weight : Nat
  deriving DecidableEq, Repr

/-- `PostinstallRunnerAction::ReportProgress`: the value passed to
`delegate_->ProgressUpdate` (1 when the partition cursor is out of range or
the total weight is zero, otherwise the clamped fraction folded into the
weighted aggregate). -/
def ReportProgress (st : RunnerState) (frac : DVal) : ℚ :=
  if st.partition_weight.length ≤ st.current_partition ∨
      st.total_weight = 0 then 1
  else
    ((st.accumulated_weight : ℚ) +
        (st.partition_weight.getD st.current_partition 0 : ℚ) *
          clampFrac frac) /
      (st.total_weight : ℚ)

/-- The fields of `InstallPlan::Partition` the runner logic reads. -/
structure Partition where
  name : String
  readonly_target_path : String
  postinstall_path : String
  filesystem_type : String
  postinstall_optional : Bool
  run_postinstall : Bool
  deriving DecidableEq, Repr

/-- The per-partition weights computed by `PerformAction`: each partition
contributes `partition.run_postinstall` (1 for true, 0 for false). -/
def partitionWeights (partitions : List Partition) : List Nat :=
  partitions.map (fun p => if p.run_postinstall then 1 else 0)

/-- What `CompletePartitionPostinstall` does after cleanup: either finish the
whole action with an error code, or advance to the next partition. -/
inductive PartitionStepOutcome where
  | completePostinstall (error_code : ErrorCode)
  | nextPartition
  deriving DecidableEq, Repr

/-- `PostinstallRunnerAction::CompletePartitionPostinstall(return_code, ...)`:
non-zero exit codes map to an error code (3 and 4 get dedicated codes), which
is surfaced unless the partition marks its postinstall optional; zero, or an
ignored optional failure, advances the cursor. -/
def CompletePartitionPostinstall (return_code : Int) (p : Partition) :
    PartitionStepOutcome :=
  if return_code ≠ 0 then
    let error_code : ErrorCode :=
      if return_code = 3 then .kPostinstallBootedFromFirmwareB
      else if return_code = 4 then .kPostinstallFirmwareRONotUpdatable
      else .kPostinstallRunnerError
    if p.postinstall_optional then .nextPartition
    else .completePostinstall error_code
  else .nextPartition

/-- The status-descriptor number handed to the postinstall script. -/
def kPostinstallStatusFd : Nat := 3

/-- `base::StartsWith(s, p, CompareCase::SENSITIVE)` (characterwise). -/
def startsWithStr (s p : String) : Bool := List.isPrefixOf p.data s.data

/-- `base::FilePath::IsAbsolute` on POSIX. -/
def isAbsolutePath (path : String) : Bool := startsWithStr path "/"

/-- `base::FilePath(dir).Append(component).value()` for a relative
component. -/
def pathAppend (dir component : String) : String :=
  if dir.data.getLast? = some '/' then dir ++ component
  else dir ++ "/" ++ component

/-- Outcome of one `PerformPartitionPostinstall` step for the current
partition: finish the action with a code, or spawn the child with the given
argv. -/
inductive PerformStepResult where
  | completeWith (error_code : ErrorCode)
  | spawnPostinstall (command : List String)
  deriving DecidableEq, Repr

/-- `PostinstallRunnerAction::PerformPartitionPostinstall`, for the current
partition (after the skip loop): mount the target (its success is an input,
since it depends on the device), reject an absolute `postinstall_path`,
reject a joined path that escapes `fs_mount_dir`, and otherwise spawn
`[abs_path, target_slot, status_fd]` (plus `"1"` for the single-partition
trigger). -/
def PerformPartitionPostinstall (fs_mount_dir : String) (target_slot : Nat)
    (single_partition_trigger : Bool) (p : Partition) (mount_ok : Bool) :
    PerformStepResult :=
  if !mount_ok then .completeWith .kPostInstallMountError
  else if isAbsolutePath p.postinstall_path then
    .completeWith .kPostinstallRunnerError
  else
    let abs_path := pathAppend fs_mount_dir p.postinstall_path
    if !(startsWithStr abs_path fs_mount_dir) then
      .completeWith .kPostinstallRunnerError
    else
      .spawnPostinstall
        ([abs_path, toString target_slot, toString kPostinstallStatusFd] ++
          if single_partition_trigger then ["1"] else [])

/-- Observable calls made by `CompletePostinstall` on its collaborators. -/
inductive Ev where
  | finishUpdate (powerwash_required : Bool)
  | setActiveBootSlot (slot : Nat)
  | setWarmReset (b : Bool)
  | setVbmetaDigestForInactiveSlot (b : Bool)
  | cancelPowerwash
  | actionComplete (code : ErrorCode)
  deriving DecidableEq, Repr

/-- Inputs of `CompletePostinstall`: install-plan flags, whether a powerwash
was scheduled during `PerformAction`, and the boolean results of the two
fallible collaborator calls. -/
structure CompleteCtx where
  switch_slot_on_reboot : Bool
  powerwash_required : Bool
  target_slot : Nat
  powerwash_scheduled : Bool
  finish_update_ok : Bool
  set_active_ok : Bool
  deriving DecidableEq, Repr

/-- The body of `CompletePostinstall` before the deferred block runs: the
collaborator calls it makes (in order) and the possibly updated error code.
`FinishUpdate` and `SetActiveBootSlot` short-circuit: a `FinishUpdate`
failure skips `SetActiveBootSlot`, and either failure downgrades the code to
`kPostinstallRunnerError` and skips the warm-reset / vbmeta calls. -/
def completeBody (ctx : CompleteCtx) (error_code : ErrorCode) :
    List Ev × ErrorCode :=
  if error_code = .kSuccess then
    if ctx.switch_slot_on_reboot then
      if ctx.finish_update_ok then
        if ctx.set_active_ok then
          ([.finishUpdate ctx.powerwash_required,
            .setActiveBootSlot ctx.target_slot,
            .setWarmReset true,
            .setVbmetaDigestForInactiveSlot false], .kSuccess)
        else
          ([.finishUpdate ctx.powerwash_required,
            .setActiveBootSlot ctx.target_slot], .kPostinstallRunnerError)
      else
        ([.finishUpdate ctx.powerwash_required], .kPostinstallRunnerError)
    else ([], .kUpdatedButNotActive)
  else ([], error_code)

/-- `PostinstallRunnerAction::CompletePostinstall(error_code)`: the body runs
first; the deferred block then cancels a scheduled powerwash when the final
code is neither `kSuccess` nor `kUpdatedButNotActive`, and finally signals
`processor_->ActionComplete` with the final code. -/
def CompletePostinstall (ctx : CompleteCtx) (error_code : ErrorCode) :
    List Ev :=
  let r := completeBody ctx error_code
  r.1 ++
    (if r.2 ≠ .kSuccess ∧ r.2 ≠ .kUpdatedButNotActive ∧
        ctx.powerwash_scheduled = true then [Ev.cancelPowerwash] else []) ++
    [Ev.actionComplete r.2]

/-- The error code delivered to the processor, read off a call trace. -/
def finalCodeOf (trace : List Ev) : Option ErrorCode :=
  match trace.getLast? with
  | some (.actionComplete e) => some e
  | _ => none

/-- A required partition with a relative postinstall path, for evaluation. -/
def samplePartition : Partition :=
  { name := "system"
    readonly_target_path := "/dev/block/sda2"
    postinstall_path := "postinst"
    filesystem_type := "ext4"
    postinstall_optional := false
    run_postinstall := true }

/-- A partition whose postinstall path is absolute, for evaluation. -/
def absolutePathPartition : Partition :=
  { samplePartition with postinstall_path := "/usr/bin/postinst" }

theorem beBytes_lt (payload : List Nat) (off n : Nat) :
    beBytes payload off n < 256 ^ n := by
  unfold beBytes
  have key : ∀ (l : List Nat) (a M : Nat), a < M →
      l.foldl (fun a b => a * 256 + b % 256) a < M * 256 ^ l.length := by
    intro l
    induction l with
    | nil => intro a M h; simpa using h
    | cons b t ih =>
      intro a M h
      have hb : b % 256 < 256 := Nat.mod_lt _ (by norm_num)
      have h1 : a * 256 + b % 256 < M * 256 := by
        have : a + 1 ≤ M := h
        calc a * 256 + b % 256 < a * 256 + 256 := by omega
          _ = (a + 1) * 256 := by ring
          _ ≤ M * 256 := Nat.mul_le_mul_right _ this
      have := ih (a * 256 + b % 256) (M * 256) h1
      calc (b :: t).foldl (fun a b => a * 256 + b % 256) a
          = t.foldl (fun a b => a * 256 + b % 256) (a * 256 + b % 256) := rfl
        _ < M * 256 * 256 ^ t.length := this
        _ = M * 256 ^ (t.length + 1) := by ring
        _ = M * 256 ^ (b :: t).length := by simp
  have hlen : ((payload.drop off).take n).length ≤ n := by
    simp [List.length_take]
  calc ((payload.drop off).take n).foldl (fun a b => a * 256 + b % 256) 0
      < 1 * 256 ^ ((payload.drop off).take n).length := key _ 0 1 (by omega)
    _ = 256 ^ ((payload.drop off).take n).length := by ring
    _ ≤ 256 ^ n := Nat.pow_le_pow_right (by norm_num) hlen

/-- C1 counterexample: a 12-byte buffer of zeros has fewer than 20 bytes, yet
`ParsePayloadHeader` does not return `kInsufficientData` (the magic check at
offset 12 fires first and yields the magic-string error). -/
theorem C1_magic_before_20_counterexample :
    (List.replicate 12 (0 : Nat)).length < 20 ∧
      (ParsePayloadHeader (List.replicate 12 (0 : Nat))).1 ≠
        MetadataParseResult.kInsufficientData := by
  decide

/-- C1 (amended): `ParsePayloadHeader` returns `kInsufficientData` iff the
buffer is shorter than 12 bytes, or the magic matches and the buffer is
shorter than 24 bytes; whenever at least 12 bytes are present and the first
four differ from `CrAU`, the result is an error with
`kDownloadInvalidMetadataMagicString`. -/
theorem C1_parse_header_magic (payload : List Nat) :
    ((ParsePayloadHeader payload).1 = MetadataParseResult.kInsufficientData ↔
      payload.length < kDeltaManifestSizeOffset ∨
        ((payload.take 4).map (fun b => b % 256) = kDeltaMagic ∧
          payload.length < GetManifestOffset)) ∧
    (kDeltaManifestSizeOffset ≤ payload.length →
      (payload.take 4).map (fun b => b % 256) ≠ kDeltaMagic →
      ParsePayloadHeader payload =
        (MetadataParseResult.kError,
          some ErrorCode.kDownloadInvalidMetadataMagicString)) := by
  have e1 : kDeltaManifestSizeOffset = 12 := rfl
  have e2 : GetManifestOffset = 24 := rfl
  constructor
  · simp only [ParsePayloadHeader]
    split_ifs with h1 h2 h3 h4 h5 h6 <;> simp_all
  · intro hlen hmagic
    have h1 : ¬ payload.length < kDeltaManifestSizeOffset := by omega
    simp only [ParsePayloadHeader]
    rw [if_neg h1, if_pos hmagic]

/-- C1 witness: the amended magic clause evaluated on the 12-zero buffer. -/
theorem C1_parse_header_magic_witness :
    ParsePayloadHeader (List.replicate 12 (0 : Nat)) =
      (MetadataParseResult.kError,
        some ErrorCode.kDownloadInvalidMetadataMagicString) :=
  (C1_parse_header_magic (List.replicate 12 (0 : Nat))).2 (by decide) (by decide)

/-- C2: when the 64-bit sum `24 + manifest_size` wraps, or the sum
`metadata_size + metadata_signature_size` wraps, `ParsePayloadHeader` returns
an error with `kDownloadInvalidMetadataSize` (the size arithmetic never
silently truncates into a success). -/
theorem C2_parse_header_overflow (payload : List Nat)
    (hlen : GetManifestOffset ≤ payload.length)
    (hmagic : (payload.take 4).map (fun b => b % 256) = kDeltaMagic)
    (hver :
      kMinSupportedMajorPayloadVersion ≤
          beBytes payload kDeltaVersionOffset kDeltaVersionSize ∧
        beBytes payload kDeltaVersionOffset kDeltaVersionSize ≤
          kMaxSupportedMajorPayloadVersion)
    (hwrap :
      2 ^ 64 ≤ GetManifestOffset +
          beBytes payload kDeltaManifestSizeOffset kDeltaManifestSizeSize ∨
        2 ^ 64 ≤ GetManifestOffset +
            beBytes payload kDeltaManifestSizeOffset kDeltaManifestSizeSize +
            beBytes payload GetMetadataSignatureSizeOffset
              kDeltaMetadataSignatureSizeSize) :
    ParsePayloadHeader payload =
      (MetadataParseResult.kError,
        some ErrorCode.kDownloadInvalidMetadataSize) := by
  have e1 : kDeltaManifestSizeOffset = 12 := rfl
  have e2 : GetManifestOffset = 24 := rfl
  have e3 : kMinSupportedMajorPayloadVersion = 2 := rfl
  have e4 : kMaxSupportedMajorPayloadVersion = 2 := rfl
  have hm := beBytes_lt payload kDeltaManifestSizeOffset kDeltaManifestSizeSize
  have hs := beBytes_lt payload GetMetadataSignatureSizeOffset
    kDeltaMetadataSignatureSizeSize
  have hm' : beBytes payload kDeltaManifestSizeOffset kDeltaManifestSizeSize <
      18446744073709551616 := by
    have : (256 : Nat) ^ kDeltaManifestSizeSize = 18446744073709551616 := by
      norm_num [kDeltaManifestSizeSize]
    omega
  have hs' : beBytes payload GetMetadataSignatureSizeOffset
      kDeltaMetadataSignatureSizeSize < 4294967296 := by
    have : (256 : Nat) ^ kDeltaMetadataSignatureSizeSize = 4294967296 := by
      norm_num [kDeltaMetadataSignatureSizeSize]
    omega
  have hp : (2 : Nat) ^ 64 = 18446744073709551616 := by norm_num
  rw [hp] at hwrap
  simp only [ParsePayloadHeader]
  rw [hp]
  split_ifs with h1 h2 h3 h4 h5 h6 <;> first
    | rfl
    | (exact absurd hmagic h2)
    | omega

/-- C2 witness: a 24-byte header with good magic, version 2, and
`manifest_size = 2 ^ 64 - 16` is rejected with `kDownloadInvalidMetadataSize`. -/
theorem C2_parse_header_overflow_witness :
    ParsePayloadHeader
        [0x43, 0x72, 0x41, 0x55, 0, 0, 0, 0, 0, 0, 0, 2,
          255, 255, 255, 255, 255, 255, 255, 240, 0, 0, 0, 0] =
      (MetadataParseResult.kError,
        some ErrorCode.kDownloadInvalidMetadataSize) :=
  C2_parse_header_overflow _ (by decide) (by decide) ⟨by decide, by decide⟩
    (Or.inl (by decide))

/-- C9: over the 32-bit slot range, `SlotName` maps the invalid sentinel to
`"INVALID"`, each slot below 26 to the one-character string holding
`'A' + slot` (codepoint `65 + slot`), and every other slot to `"TOO_BIG"`. -/
theorem C9_SlotName_spec (s : Nat) (hs : s < 2 ^ 32) :
    (s = kInvalidSlot → SlotName s = "INVALID") ∧
    (s < 26 → SlotName s = String.mk [Char.ofNat (65 + s)] ∧
      (SlotName s).length = 1) ∧
    (s ≠ kInvalidSlot → 26 ≤ s → SlotName s = "TOO_BIG") := by
  refine ⟨fun h => ?_, fun h => ?_, fun h1 h2 => ?_⟩
  · simp [SlotName, h]
  · have hne : s ≠ kInvalidSlot := by simp only [kInvalidSlot]; omega
    constructor
    · simp [SlotName, hne, h]
    · simp [SlotName, hne, h, String.length]
  · have h26 : ¬ s < 26 := by omega
    simp [SlotName, h1, h26]

/-- C9 witness: `SlotName` evaluated at the sentinel, at slot 2, and at 26. -/
theorem C9_SlotName_spec_witness :
    SlotName 4294967295 = "INVALID" ∧
      SlotName 2 = String.mk [Char.ofNat (65 + 2)] ∧
      SlotName 26 = "TOO_BIG" :=
  ⟨(C9_SlotName_spec 4294967295 (by norm_num)).1 rfl,
    ((C9_SlotName_spec 2 (by norm_num)).2.1 (by norm_num)).1,
    (C9_SlotName_spec 26 (by norm_num)).2.2 (by decide) (by norm_num)⟩

theorem ReadAll_bytes_le (outs : List utils.ReadOutcome) (count : Nat) :
    ∀ br r, br ≤ count → utils.ReadAll outs count br = some r →
      r.bytes_read ≤ count := by
  induction outs with
  | nil =>
    intro br r hbr h
    simp only [utils.ReadAll] at h
    split at h
    · exact Option.noConfusion h
    · cases h; simpa
  | cons o rest ih =>
    intro br r hbr h
    cases o with
    | rerr e =>
      simp only [utils.ReadAll] at h
      split at h
      · split at h <;> (cases h; simpa)
      · cases h; simpa
    | rdata n =>
      simp only [utils.ReadAll] at h
      split at h
      · split at h
        · cases h; simpa
        · exact ih _ r (by omega) h
      · cases h; simpa

/-- C10: `utils::ReadAll` never reports more than `count` bytes; a would-block
errno (EAGAIN/EWOULDBLOCK) makes it return `true` with the bytes read so far
and `*eof` false; it returns `false` only when some read failed with a
different errno; a zero-byte read returns `true` with `*eof` set; and polling
a drained non-blocking descriptor yields success with zero bytes. -/
theorem C10_ReadAll_spec :
    (∀ outs count r, utils.ReadAll outs count 0 = some r →
      r.bytes_read ≤ count) ∧
    (∀ e rest count br, e = utils.EAGAIN ∨ e = utils.EWOULDBLOCK →
      utils.ReadAll (.rerr e :: rest) count br = some ⟨true, br, false⟩) ∧
    (∀ outs count br r, utils.ReadAll outs count br = some r → r.ok = false →
      ∃ e, utils.ReadOutcome.rerr e ∈ outs ∧ e ≠ utils.EAGAIN ∧
        e ≠ utils.EWOULDBLOCK) ∧
    (∀ rest count br, br < count →
      utils.ReadAll (.rdata 0 :: rest) count br = some ⟨true, br, true⟩) ∧
    (∀ count, utils.ReadAll [.rerr utils.EAGAIN] count 0 =
      some ⟨true, 0, false⟩) := by
  have herr : ∀ (e : Nat) (rest : List utils.ReadOutcome) (count br : Nat),
      e = utils.EAGAIN ∨ e = utils.EWOULDBLOCK →
      utils.ReadAll (.rerr e :: rest) count br = some ⟨true, br, false⟩ := by
    intro e rest count br he
    have he' : e = 11 := by
      rcases he with h | h <;> simpa [utils.EAGAIN, utils.EWOULDBLOCK] using h
    subst he'
    simp only [utils.ReadAll]
    split
    · simp [utils.EAGAIN, utils.EWOULDBLOCK]
    · rfl
  refine ⟨fun outs count r h => ReadAll_bytes_le outs count 0 r (by omega) h,
    herr, ?_, fun rest count br hbr => ?_, fun count => herr _ _ _ _ (Or.inl rfl)⟩
  · intro outs
    induction outs with
    | nil =>
      intro count br r h hok
      simp only [utils.ReadAll] at h
      split at h
      · exact Option.noConfusion h
      · cases h; simp at hok
    | cons o rest ih =>
      intro count br r h hok
      cases o with
      | rerr e =>
        simp only [utils.ReadAll] at h
        split at h
        · split at h
          · rename_i hcond
            exact ⟨e, by simp, hcond.2, hcond.1⟩
          · cases h; simp at hok
        · cases h; simp at hok
      | rdata n =>
        simp only [utils.ReadAll] at h
        split at h
        · split at h
          · cases h; simp at hok
          · obtain ⟨e, hmem, h1, h2⟩ := ih count _ r h hok
            exact ⟨e, by simp [hmem], h1, h2⟩
        · cases h; simp at hok
  · simp [utils.ReadAll, hbr]

/-- C10 witness: a zero-byte read reports EOF, and an EAGAIN poll reports
success with zero bytes. -/
theorem C10_ReadAll_spec_witness :
    utils.ReadAll [.rdata 0] 5 0 = some ⟨true, 0, true⟩ ∧
      utils.ReadAll [.rerr utils.EAGAIN] 5 0 = some ⟨true, 0, false⟩ :=
  ⟨C10_ReadAll_spec.2.2.2.1 [] 5 0 (by norm_num),
    C10_ReadAll_spec.2.2.2.2 5⟩

theorem clampFrac_nonneg (v : DVal) : 0 ≤ clampFrac v := by
  cases v with
  | finite q =>
    show (0 : ℚ) ≤ if q < 0 then 0 else if 1 < q then 1 else q
    split_ifs with h1 h2
    · norm_num
    · norm_num
    · push_neg at h1
      exact h1
  | nan => exact le_refl 0
  | inf b => exact le_refl 0

theorem clampFrac_le_one (v : DVal) : clampFrac v ≤ 1 := by
  cases v with
  | finite q =>
    show (if q < 0 then 0 else if 1 < q then 1 else q) ≤ (1 : ℚ)
    split_ifs with h1 h2
    · norm_num
    · norm_num
    · push_neg at h2
      exact h2
  | nan => exact zero_le_one
  | inf b => exact zero_le_one

/-- C3 counterexample: the line `global_progress nan` carries a fraction that
`%lf` does parse as a double (NaN), yet `ProcessProgressLine` ignores the
line instead of reporting it. -/
theorem C3_nan_line_counterexample :
    scanDouble (" nan".data) = some (DVal.nan, []) ∧
      ProcessProgressLine "global_progress nan" = none := by
  constructor <;> rfl

/-- C3 (amended): a line is reported exactly when it starts with the literal
`global_progress` and the remainder scans as a double that is not NaN (so
NaN-carrying lines are ignored entirely, while infinities are reported); the
fraction used by `ReportProgress` is clamped to `[0, 1]`, with NaN and the
infinities coerced to 0. -/
theorem C3_progress_line_spec :
    (∀ (line : String) (v : DVal),
      ProcessProgressLine line = some v ↔
        v ≠ DVal.nan ∧ ∃ rest rem, dropLiteral gpLiteral line.data = some rest ∧
          scanDouble rest = some (v, rem)) ∧
    (∀ v, 0 ≤ clampFrac v ∧ clampFrac v ≤ 1) ∧
    clampFrac DVal.nan = 0 ∧ (∀ b, clampFrac (DVal.inf b) = 0) := by
  refine ⟨?_, fun v => ⟨clampFrac_nonneg v, clampFrac_le_one v⟩, rfl, fun b => rfl⟩
  intro line v
  constructor
  · intro h
    simp only [ProcessProgressLine] at h
    split at h
    · exact Option.noConfusion h
    · rename_i rest hdl
      split at h
      · exact Option.noConfusion h
      · rename_i vr hsd
        split at h
        · exact Option.noConfusion h
        · rename_i hnan
          cases h
          exact ⟨hnan, rest, vr.2, hdl, by simpa using hsd⟩
  · rintro ⟨hv, rest, rem, hdl, hsd⟩
    simp [ProcessProgressLine, hdl, hsd, hv]

/-- C5: on a non-zero exit code the runner surfaces
`kPostinstallBootedFromFirmwareB` for 3, `kPostinstallFirmwareRONotUpdatable`
for 4 and `kPostinstallRunnerError` otherwise — unless the partition marks
its postinstall optional, in which case the failure is ignored and the runner
advances to the next partition. -/
theorem C5_exit_codes (rc : Int) (p : Partition) (hnz : rc ≠ 0) :
    CompletePartitionPostinstall rc p =
      if p.postinstall_optional then .nextPartition
      else .completePostinstall
        (if rc = 3 then .kPostinstallBootedFromFirmwareB
          else if rc = 4 then .kPostinstallFirmwareRONotUpdatable
          else .kPostinstallRunnerError) := by
  simp [CompletePartitionPostinstall, hnz]

/-- C5 witness: exit code 3 on a required partition surfaces
`kPostinstallBootedFromFirmwareB`. -/
theorem C5_exit_codes_witness :
    CompletePartitionPostinstall 3 samplePartition =
      .completePostinstall .kPostinstallBootedFromFirmwareB := by
  rw [C5_exit_codes 3 samplePartition (by norm_num)]
  rfl

/-- C6: when the postinstall path is absolute, or its join with the mount
directory does not begin with the mount directory, the step completes with
`kPostinstallRunnerError` (given the mount itself succeeded) and in no case
spawns the child process. -/
theorem C6_path_safety (fs_mount_dir : String) (target_slot : Nat)
    (single_partition_trigger : Bool) (p : Partition) (mount_ok : Bool)
    (hbad : isAbsolutePath p.postinstall_path = true ∨
      startsWithStr (pathAppend fs_mount_dir p.postinstall_path) fs_mount_dir =
        false) :
    (mount_ok = true →
      PerformPartitionPostinstall fs_mount_dir target_slot
          single_partition_trigger p mount_ok =
        .completeWith .kPostinstallRunnerError) ∧
    (∀ cmd, PerformPartitionPostinstall fs_mount_dir target_slot
        single_partition_trigger p mount_ok ≠ .spawnPostinstall cmd) := by
  constructor
  · intro hm
    subst hm
    by_cases ha : isAbsolutePath p.postinstall_path
    · simp [PerformPartitionPostinstall, ha]
    · rcases hbad with h | h
      · exact absurd h ha
      · simp [PerformPartitionPostinstall, ha, h]
  · intro cmd
    cases mount_ok with
    | false => simp [PerformPartitionPostinstall]
    | true =>
      by_cases ha : isAbsolutePath p.postinstall_path
      · simp [PerformPartitionPostinstall, ha]
      · rcases hbad with h | h
        · exact absurd h ha
        · simp [PerformPartitionPostinstall, ha, h]

/-- C6 witness: an absolute postinstall path is rejected with
`kPostinstallRunnerError` even though the mount succeeded. -/
theorem C6_path_safety_witness :
    PerformPartitionPostinstall "/postinstall" 1 false
        absolutePathPartition true =
      .completeWith .kPostinstallRunnerError :=
  (C6_path_safety "/postinstall" 1 false absolutePathPartition true
    (Or.inl (by decide))).1 rfl

/-- C4: under the weighting set up by `PerformAction` (each partition with
`run_postinstall` contributing weight 1, else 0; the accumulated weight being
the sum over completed partitions; the total being the sum over all), every
value `ReportProgress` delivers to the delegate lies in `[0, 1]`, for an
arbitrary incoming double (NaN, infinities, negatives, values above 1). -/
theorem C4_progress_bounds (st : RunnerState) (parts : List Partition)
    (hw : st.partition_weight = partitionWeights parts)
    (hacc : st.accumulated_weight =
      (st.partition_weight.take st.current_partition).sum)
    (htot : st.total_weight = st.partition_weight.sum)
    (frac : DVal) :
    0 ≤ ReportProgress st frac ∧ ReportProgress st frac ≤ 1 := by
  unfold ReportProgress
  split_ifs with h
  · norm_num
  · push_neg at h
    obtain ⟨hlen, htz⟩ := h
    have hcur : st.current_partition < st.partition_weight.length := hlen
    have hsum : st.accumulated_weight +
        st.partition_weight.getD st.current_partition 0 ≤ st.total_weight := by
      rw [hacc, htot, List.getD_eq_getElem _ _ hcur]
      have h1 := List.sum_take_succ st.partition_weight st.current_partition hcur
      have h2 : (st.partition_weight.take (st.current_partition + 1)).sum ≤
          st.partition_weight.sum := by
        conv_rhs => rw [← List.take_append_drop (st.current_partition + 1)
          st.partition_weight]
        rw [List.sum_append]
        omega
      omega
    have ht0 : (0 : ℚ) < (st.total_weight : ℚ) := by
      exact_mod_cast Nat.pos_of_ne_zero htz
    have hw0 : (0 : ℚ) ≤
        (st.partition_weight.getD st.current_partition 0 : ℚ) :=
      Nat.cast_nonneg _
    have hnum0 : (0 : ℚ) ≤ (st.accumulated_weight : ℚ) +
        (st.partition_weight.getD st.current_partition 0 : ℚ) *
          clampFrac frac :=
      add_nonneg (Nat.cast_nonneg _) (mul_nonneg hw0 (clampFrac_nonneg frac))
    refine ⟨div_nonneg hnum0 (le_of_lt ht0), ?_⟩
    rw [div_le_one ht0]
    calc (st.accumulated_weight : ℚ) +
          (st.partition_weight.getD st.current_partition 0 : ℚ) *
            clampFrac frac
        ≤ (st.accumulated_weight : ℚ) +
          (st.partition_weight.getD st.current_partition 0 : ℚ) * 1 :=
          add_le_add_left
            (mul_le_mul_of_nonneg_left (clampFrac_le_one frac) hw0) _
      _ = (st.accumulated_weight : ℚ) +
          (st.partition_weight.getD st.current_partition 0 : ℚ) := by ring
      _ ≤ (st.total_weight : ℚ) := by exact_mod_cast hsum

/-- C4 witness: the state after `PerformAction` on two postinstall-running
partitions, with fraction 1/2. -/
theorem C4_progress_bounds_witness :
    0 ≤ ReportProgress ⟨[1, 1], 0, 0, 2⟩ (DVal.finite (1 / 2)) ∧
      ReportProgress ⟨[1, 1], 0, 0, 2⟩ (DVal.finite (1 / 2)) ≤ 1 :=
  C4_progress_bounds ⟨[1, 1], 0, 0, 2⟩ [samplePartition, samplePartition]
    rfl rfl rfl (DVal.finite (1 / 2))

theorem completeBody_no_cancel (ctx : CompleteCtx) (e : ErrorCode) :
    Ev.cancelPowerwash ∉ (completeBody ctx e).1 := by
  unfold completeBody
  split_ifs <;> simp

theorem finalCodeOf_CompletePostinstall (ctx : CompleteCtx) (e : ErrorCode) :
    finalCodeOf (CompletePostinstall ctx e) = some (completeBody ctx e).2 := by
  simp only [CompletePostinstall, finalCodeOf]
  rw [List.getLast?_concat]

/-- C7: with a powerwash scheduled, whenever the final code is neither
`kSuccess` nor `kUpdatedButNotActive`, the completion trace contains exactly
one `CancelPowerwash`, placed before `ActionComplete`; when the final code is
`kSuccess` or `kUpdatedButNotActive` the powerwash is not cancelled. -/
theorem C7_powerwash_cancel (ctx : CompleteCtx) (e fc : ErrorCode)
    (hs : ctx.powerwash_scheduled = true)
    (hfc : finalCodeOf (CompletePostinstall ctx e) = some fc) :
    ((fc ≠ .kSuccess ∧ fc ≠ .kUpdatedButNotActive) →
      ∃ pre, CompletePostinstall ctx e =
          pre ++ [Ev.cancelPowerwash, Ev.actionComplete fc] ∧
        Ev.cancelPowerwash ∉ pre ∧
        (CompletePostinstall ctx e).count Ev.cancelPowerwash = 1) ∧
    ((fc = .kSuccess ∨ fc = .kUpdatedButNotActive) →
      (CompletePostinstall ctx e).count Ev.cancelPowerwash = 0) := by
  have h0 := finalCodeOf_CompletePostinstall ctx e
  rw [hfc] at h0
  have hfc2 : fc = (completeBody ctx e).2 := Option.some_inj.mp h0
  subst hfc2
  have hnc := completeBody_no_cancel ctx e
  constructor
  · rintro ⟨h1, h2⟩
    simp only [CompletePostinstall]
    rw [if_pos ⟨h1, h2, hs⟩]
    refine ⟨(completeBody ctx e).1, by simp, hnc, ?_⟩
    simp [List.count_append, List.count_eq_zero.mpr hnc]
  · intro h
    simp only [CompletePostinstall]
    have hcond : ¬((completeBody ctx e).2 ≠ ErrorCode.kSuccess ∧
        (completeBody ctx e).2 ≠ ErrorCode.kUpdatedButNotActive ∧
        ctx.powerwash_scheduled = true) := by
      rcases h with h | h <;> simp [h]
    rw [if_neg hcond]
    simp [List.count_append, List.count_eq_zero.mpr hnc]

/-- C7 witness: `FinishUpdate` fails on a switch-slot plan with a scheduled
powerwash; the final code is `kPostinstallRunnerError` and the trace cancels
the powerwash exactly once, right before completion is signalled. -/
theorem C7_powerwash_cancel_witness :
    ∃ pre, CompletePostinstall ⟨true, false, 1, true, false, true⟩
          ErrorCode.kSuccess =
        pre ++ [Ev.cancelPowerwash,
          Ev.actionComplete ErrorCode.kPostinstallRunnerError] ∧
      Ev.cancelPowerwash ∉ pre ∧
      (CompletePostinstall ⟨true, false, 1, true, false, true⟩
          ErrorCode.kSuccess).count Ev.cancelPowerwash = 1 :=
  (C7_powerwash_cancel ⟨true, false, 1, true, false, true⟩
    ErrorCode.kSuccess ErrorCode.kPostinstallRunnerError rfl (by rfl)).1
    (by decide)

/-- C8: on a fully successful postinstall run with
`switch_slot_on_reboot = true` (and the collaborator calls succeeding), the
completion trace is exactly `FinishUpdate(powerwash_required)`,
`SetActiveBootSlot(target_slot)`, `SetWarmReset(true)`,
`SetVbmetaDigestForInactiveSlot(false)`, then the `kSuccess` completion; with
`switch_slot_on_reboot = false` none of those calls happen and the terminal
code is `kUpdatedButNotActive`. -/
theorem C8_completion_sequence (ctx : CompleteCtx) :
    (ctx.switch_slot_on_reboot = true → ctx.finish_update_ok = true →
      ctx.set_active_ok = true →
      CompletePostinstall ctx .kSuccess =
        [.finishUpdate ctx.powerwash_required,
          .setActiveBootSlot ctx.target_slot,
          .setWarmReset true,
          .setVbmetaDigestForInactiveSlot false,
          .actionComplete .kSuccess]) ∧
    (ctx.switch_slot_on_reboot = false →
      CompletePostinstall ctx .kSuccess =
        [.actionComplete .kUpdatedButNotActive]) := by
  constructor
  · intro h1 h2 h3
    simp [CompletePostinstall, completeBody, h1, h2, h3]
  · intro h1
    simp [CompletePostinstall, completeBody, h1]

/-- C8 witness: both branches evaluated on concrete contexts. -/
theorem C8_completion_sequence_witness :
    CompletePostinstall ⟨true, true, 1, true, true, true⟩ .kSuccess =
        [.finishUpdate true, .setActiveBootSlot 1, .setWarmReset true,
          .setVbmetaDigestForInactiveSlot false,
          .actionComplete .kSuccess] ∧
      CompletePostinstall ⟨false, false, 0, false, true, true⟩ .kSuccess =
        [.actionComplete .kUpdatedButNotActive] :=
  ⟨(C8_completion_sequence ⟨true, true, 1, true, true, true⟩).1 rfl rfl rfl,
    (C8_completion_sequence ⟨false, false, 0, false, true, true⟩).2 rfl⟩

end chromeos_update_engine
